import Mathlib

/-
Verification development for the multi-leg American Monte Carlo engine
(QuantExt McMultiLegBaseEngine and MultiLegBaseAmcCalculator,
src/QuantExt/qle/pricingengines/mcmultilegbaseengine.cpp).

The engine code is embedded shallowly:
  * Batched sample vectors (the RandomVariable class of the external
    qle/math random variable library, which is not part of the verified
    sources) are modelled as functions from the path index to a rational
    number; filters as functions from the path index to Bool.  All
    arithmetic on them is elementwise across paths, as the specification
    of the batched sample vector data model requires.
  * The regression fitting engine (regressionCoefficients) and the path
    value of a single cash flow (cashflowPathValue, which depends on the
    external stochastic model and its numeraire) are abstracted as
    function parameters; the evaluation of a fitted regression
    (conditionalExpectation) is modelled from the spec as the coefficient
    weighted sum of basis function values at the supplied state.
  * Machine floating point is modelled by exact rationals.
-/

namespace QuantExt

/-- Modelled from the spec: a Batched Sample Vector (the RandomVariable class
of the external random variable library) is a fixed-size array of one value
per Monte Carlo path; we represent it as a function from the path index. -/
abbrev RandomVariable : Type := ℕ → ℚ

/-- Modelled from the spec: a per-path boolean vector (the Filter class of the
external random variable library). -/
abbrev PathFilter : Type := ℕ → Bool

/-- Modelled from the spec: the constant batched sample vector
RandomVariable(n, x). -/
def rvConst (x : ℚ) : RandomVariable := fun _ => x

/-- Modelled from the spec: elementwise sum of two batched sample vectors. -/
def rvAdd (a b : RandomVariable) : RandomVariable := fun p => a p + b p

/-- Modelled from the spec: scaling of a batched sample vector by a scalar. -/
def rvScale (x : ℚ) (a : RandomVariable) : RandomVariable := fun p => x * a p

/-- Modelled from the spec: elementwise maximum of two batched sample
vectors (the max function of the external random variable library). -/
def rvMax (a b : RandomVariable) : RandomVariable := fun p => max (a p) (b p)

/-- Modelled from the spec: elementwise strict comparison a > b of two
batched sample vectors, producing a per-path filter. -/
def rvGt (a b : RandomVariable) : PathFilter := fun p => decide (b p < a p)

/-- Modelled from the spec: the all-false filter Filter(n, false). -/
def falseFilter : PathFilter := fun _ => false

/-- Modelled from the spec: elementwise disjunction of two filters. -/
def filterOr (a b : PathFilter) : PathFilter := fun p => a p || b p

/-- Modelled from the spec: elementwise conjunction of two filters. -/
def filterAnd (a b : PathFilter) : PathFilter := fun p => a p && b p

/-- Modelled from the spec: elementwise negation of a filter. -/
def filterNot (a : PathFilter) : PathFilter := fun p => !(a p)

/-- Modelled from the spec: the elementwise conditional select
conditionalResult(f, a, b) of the external random variable library, which
yields a where the filter is true and b elsewhere. -/
def conditionalResult (f : PathFilter) (a b : RandomVariable) : RandomVariable :=
  fun p => if f p then a p else b p

/-- Modelled from the spec: applyInverseFilter(a, f) of the external random
variable library zeroes a wherever the filter is true and keeps it
elsewhere. -/
def applyInverseFilter (a : RandomVariable) (f : PathFilter) : RandomVariable :=
  fun p => if f p then 0 else a p

/-- Modelled from the spec: conditionalExpectation(regressor, basisFns,
coeffs) of the external random variable library evaluates a fitted
regression: the coefficient weighted sum of the basis function values at the
regressor state, elementwise across paths.  A basis function is a real
function of the per-path state vector (one entry per regressor). -/
def conditionalExpectation (regressor : List RandomVariable)
    (basisFns : List (List ℚ → ℚ)) (coeffs : List ℚ) : RandomVariable :=
  fun p => (List.zipWith (fun c b => c * b (regressor.map (fun r => r p))) coeffs basisFns).sum

/-- Settlement type of the exercise (Settlement::Type in QuantLib). -/
inductive Settlement where
  | Cash : Settlement
  | Physical : Settlement
deriving DecidableEq

/-- The data held by MultiLegBaseAmcCalculator: everything its constructor
receives from McMultiLegBaseEngine::calculate.  The three time sets are kept
as sorted duplicate-free lists (std::set iteration order). -/
structure AmcCalc where
  externalModelIndices : List ℕ
  settlement : Settlement
  exerciseXvaTimes : List ℚ
  exerciseTimes : List ℚ
  xvaTimes : List ℚ
  coeffsUndDirty : List (List ℚ)
  coeffsUndExInto : List (List ℚ)
  coeffsContinuationValue : List (List ℚ)
  coeffsOption : List (List ℚ)
  basisFns : List (List ℚ → ℚ)
  resultValue : ℚ
  initialState : List ℚ

/-- The filtering loop of MultiLegBaseAmcCalculator::simulatePath over the
input path times: collect pathTimes[ind] for each relevant time (with ind
shifted one back on a sticky close-out run, failing if that index would be
negative) together with the effective path states restricted to the external
model indices. -/
def collectRelevantAux (externalModelIndices : List ℕ) (pathTimes : List ℚ)
    (paths : List (List RandomVariable)) (isRelevantTime : List Bool)
    (stickyCloseOutRun : Bool) :
    List ℕ → Except String (List ℚ × List (List RandomVariable))
  | [] => .ok ([], [])
  | i :: is =>
    if isRelevantTime.getD i false then
      if stickyCloseOutRun && i == 0 then
        .error ("MultiLegBaseAmcCalculator: sticky close out run time index is negative - internal error.")
      else
        let ind := if stickyCloseOutRun then i - 1 else i
        match collectRelevantAux externalModelIndices pathTimes paths isRelevantTime stickyCloseOutRun is with
        | .error e => .error e
        | .ok (ts, ps) =>
          .ok (pathTimes.getD ind 0 :: ts,
               (externalModelIndices.map (fun m => (paths.getD i []).getD m (rvConst 0))) :: ps)
    else collectRelevantAux externalModelIndices pathTimes paths isRelevantTime stickyCloseOutRun is

/-- Entry point for the relevant-time collection over all input indices. -/
def collectRelevant (externalModelIndices : List ℕ) (pathTimes : List ℚ)
    (paths : List (List RandomVariable)) (isRelevantTime : List Bool)
    (stickyCloseOutRun : Bool) :
    Except String (List ℚ × List (List RandomVariable)) :=
  collectRelevantAux externalModelIndices pathTimes paths isRelevantTime stickyCloseOutRun
    (List.range pathTimes.length)

/-- First index of a time list satisfying a predicate (the std::set find
and lower_bound lookups, on the sorted duplicate-free time lists). -/
def findFirstIdx (p : ℚ → Bool) : List ℚ → Option ℕ
  | [] => none
  | x :: xs => if p x then some 0 else (findFirstIdx p xs).map (fun i => i + 1)

/-- The branch of simulatePath for instruments without exercise times: at
each xva time, look the time up in the exercise-xva grid (internal error if
missing) and return the dirty value regression evaluated at the supplied
state. -/
def noExerciseEntriesAux (c : AmcCalc) (effPaths : List (List RandomVariable)) :
    List ℚ → ℕ → Except String (List RandomVariable)
  | [], _ => .ok []
  | t :: ts, counter =>
    match findFirstIdx (fun x => x == t) c.exerciseXvaTimes with
    | none => .error ("MultiLegBaseAmcCalculator::simulatePath(): internal error, xva time not found in exerciseXvaTimes vector.")
    | some ind =>
      match noExerciseEntriesAux c effPaths ts (counter + 1) with
      | .error e => .error e
      | .ok rest =>
        .ok (conditionalExpectation (effPaths.getD counter []) c.basisFns
              (c.coeffsUndDirty.getD ind []) :: rest)

/-- The exercise-indicator loop of simulatePath (non-sticky run): for each
exercise time, locate it on the exercise-xva grid, find the bracketing xva
time states (breaking off for good when the exercise time lies beyond every
xva time), linearly interpolate the state to the exercise time, evaluate the
exercise-into and continuation regressions there and set the indicator slot
counter+1 to: previous slot false AND exercise value > continuation value
AND exercise value > 0. -/
def computeExercisedAux (c : AmcCalc) (effPaths : List (List RandomVariable))
    (initialStateRVs : List RandomVariable) :
    List ℚ → ℕ → List PathFilter → Except String (List PathFilter)
  | [], _, ex => .ok ex
  | t :: ts, counter, ex =>
    match findFirstIdx (fun x => x == t) c.exerciseXvaTimes with
    | none => .error ("MultiLegBaseAmcCalculator::simulatePath(): internal error, exercise time not found in exerciseXvaTimes vector.")
    | some ind =>
      match findFirstIdx (fun x => decide (t ≤ x)) c.xvaTimes with
      | none => .ok ex
      | some k =>
        let time2 := c.xvaTimes.getD k 0
        let s2 := effPaths.getD k []
        let time1 := if k = 0 then 0 else c.xvaTimes.getD (k - 1) 0
        let s1 := if k = 0 then initialStateRVs else effPaths.getD (k - 1) []
        let alpha1 := (time2 - t) / (time2 - time1)
        let alpha2 := (t - time1) / (time2 - time1)
        let s := List.zipWith (fun a b => rvAdd (rvScale alpha1 a) (rvScale alpha2 b)) s1 s2
        let exerciseValue := conditionalExpectation s c.basisFns (c.coeffsUndExInto.getD ind [])
        let continuationValue :=
          conditionalExpectation s c.basisFns (c.coeffsContinuationValue.getD ind [])
        let newInd := filterAnd (filterNot (ex.getD counter falseFilter))
          (filterAnd (rvGt exerciseValue continuationValue) (rvGt exerciseValue (rvConst 0)))
        computeExercisedAux c effPaths initialStateRVs ts (counter + 1)
          (ex.set (counter + 1) newInd)

/-- The full exercise-indicator computation: the indicator vector starts as
exerciseTimes.length + 1 all-false filters (slot 0 stands for "before the
first exercise time") and is filled by the loop. -/
def computeExercised (c : AmcCalc) (effPaths : List (List RandomVariable))
    (initialStateRVs : List RandomVariable) : Except String (List PathFilter) :=
  computeExercisedAux c effPaths initialStateRVs c.exerciseTimes 0
    (List.replicate (c.exerciseTimes.length + 1) falseFilter)

/-- One xva-time record of the result-population loop of simulatePath: the
intermediates the loop computes at a valuation time, with value the entry
written into the result vector. -/
structure XvaRecord where
  wasExercised : PathFilter
  stillValid : PathFilter
  optionValue : RandomVariable
  exIntoValue : RandomVariable
  dirtyValue : RandomVariable
  cashAccountedBefore : PathFilter
  exercisedValueRaw : RandomVariable
  exercisedValueMasked : RandomVariable
  value : RandomVariable

/-- A default xva record (used as the getD fallback in statements). -/
def defaultXvaRecord : XvaRecord :=
  { wasExercised := falseFilter, stillValid := falseFilter, optionValue := rvConst 0,
    exIntoValue := rvConst 0, dirtyValue := rvConst 0, cashAccountedBefore := falseFilter,
    exercisedValueRaw := rvConst 0, exercisedValueMasked := rvConst 0, value := rvConst 0 }

instance : Inhabited XvaRecord := ⟨defaultXvaRecord⟩

/-- The exercise-counter update of the result-population loop: at an
exercise time the counter advances. -/
def nextEC (c : AmcCalc) (t : ℚ) (exerciseCounter : ℕ) : ℕ :=
  if t ∈ c.exerciseTimes then exerciseCounter + 1 else exerciseCounter

/-- The wasExercised update of the result-population loop: at an exercise
time the accumulated filter picks up the indicator of that time. -/
def nextWE (c : AmcCalc) (exercised : List PathFilter) (t : ℚ) (exerciseCounter : ℕ)
    (wasEx : PathFilter) : PathFilter :=
  if t ∈ c.exerciseTimes
  then filterOr wasEx (exercised.getD (nextEC c t exerciseCounter) falseFilter)
  else wasEx

/-- The cash-settlement already-accounted-for mask update performed at an
xva time: under cash settlement the mask picks up the current wasExercised
filter, under physical settlement it is unchanged. -/
def nextCashAcc (c : AmcCalc) (cashAcc we : PathFilter) : PathFilter :=
  if c.settlement = Settlement.Cash then filterOr cashAcc we else cashAcc

/-- The record the result-population loop emits at an xva time: the option
value regression, the raw exercised value (exercise-into regression where
the indicator of the current exercise period holds, dirty regression
elsewhere), the cash-settlement masking of it, and the floored result
value. -/
def xvaStepRecord (c : AmcCalc) (effPaths : List (List RandomVariable))
    (exercised : List PathFilter) (counter xvaCounter ec : ℕ)
    (cashAcc we : PathFilter) : XvaRecord :=
  let sp := effPaths.getD xvaCounter []
  let optionValue := conditionalExpectation sp c.basisFns (c.coeffsOption.getD counter [])
  let exInto := conditionalExpectation sp c.basisFns (c.coeffsUndExInto.getD counter [])
  let dirty := conditionalExpectation sp c.basisFns (c.coeffsUndDirty.getD counter [])
  let evRaw := conditionalResult (exercised.getD ec falseFilter) exInto dirty
  let evMasked := if c.settlement = Settlement.Cash then applyInverseFilter evRaw cashAcc else evRaw
  { wasExercised := we, stillValid := exercised.getD ec falseFilter,
    optionValue := optionValue, exIntoValue := exInto, dirtyValue := dirty,
    cashAccountedBefore := cashAcc, exercisedValueRaw := evRaw,
    exercisedValueMasked := evMasked,
    value := rvMax (rvConst 0) (conditionalResult we evMasked optionValue) }

/-- The result-population loop of simulatePath, walking the merged
exercise-xva grid.  At an exercise time the exercise counter advances and
wasExercised picks up the indicator of that time; at an xva time the loop
emits the xvaStepRecord and updates the cash-accounted mask.  The arguments
after the time list are the running counter into the merged grid, the xva
counter, the exercise counter, the cash-accounted mask and the accumulated
wasExercised filter. -/
def buildTrace (c : AmcCalc) (effPaths : List (List RandomVariable))
    (exercised : List PathFilter) :
    List ℚ → ℕ → ℕ → ℕ → PathFilter → PathFilter → List XvaRecord
  | [], _, _, _, _, _ => []
  | t :: ts, counter, xvaCounter, exerciseCounter, cashAcc, wasEx =>
    if t ∈ c.xvaTimes then
      xvaStepRecord c effPaths exercised counter xvaCounter (nextEC c t exerciseCounter)
          cashAcc (nextWE c exercised t exerciseCounter wasEx)
        :: buildTrace c effPaths exercised ts (counter + 1) (xvaCounter + 1)
            (nextEC c t exerciseCounter)
            (nextCashAcc c cashAcc (nextWE c exercised t exerciseCounter wasEx))
            (nextWE c exercised t exerciseCounter wasEx)
    else
      buildTrace c effPaths exercised ts (counter + 1) xvaCounter (nextEC c t exerciseCounter)
        cashAcc (nextWE c exercised t exerciseCounter wasEx)

/-- The result-population trace of simulatePath as invoked there: the merged
grid is walked from its start with all counters zero, the cash-accounted
mask and the wasExercised filter all-false. -/
def replayTrace (c : AmcCalc) (effPaths : List (List RandomVariable))
    (exercised : List PathFilter) : List XvaRecord :=
  buildTrace c effPaths exercised c.exerciseXvaTimes 0 0 0 falseFilter falseFilter

/-- Pad or cut a list of result entries to the preallocated result size (the
result vector of simulatePath is preallocated with zero vectors). -/
def padTo (n : ℕ) (l : List RandomVariable) : List RandomVariable :=
  l.take n ++ List.replicate (n - l.length) (rvConst 0)

/-- MultiLegBaseAmcCalculator::simulatePath.  Inputs are the external path
times, the path states (one list of per-model-index batched vectors per
time), the relevant-time mask and the sticky close-out flag; exercisedState
is the exercised indicator member retained on the calculator between calls.
Returns the result vector (reference date entry first, then one entry per
valuation time) together with the new indicator member state; QL_REQUIRE
failures become errors. -/
def simulatePath (c : AmcCalc) (pathTimes : List ℚ)
    (paths : List (List RandomVariable)) (isRelevantTime : List Bool)
    (stickyCloseOutRun : Bool) (exercisedState : List PathFilter) :
    Except String (List RandomVariable × List PathFilter) :=
  if paths.isEmpty then
    .error ("MultiLegBaseAmcCalculator::simulatePath(): no future path times, this is not allowed.")
  else if pathTimes.length ≠ paths.length then
    .error ("MultiLegBaseAmcCalculator::simulatePath(): inconsistent pathTimes size and paths size - internal error.")
  else
    match collectRelevant c.externalModelIndices pathTimes paths isRelevantTime stickyCloseOutRun with
    | .error e => .error e
    | .ok (simTimes, effPaths) =>
      if simTimes.length ≠ c.xvaTimes.length then
        .error ("MultiLegBaseAmcCalculator::simulatePath(): expected input path size mismatch")
      else
        let refEntry : RandomVariable := rvConst c.resultValue
        let initialStateRVs : List RandomVariable :=
          (List.range c.externalModelIndices.length).map (fun j => rvConst (c.initialState.getD j 0))
        if c.exerciseTimes.isEmpty then
          match noExerciseEntriesAux c effPaths c.xvaTimes 0 with
          | .error e => .error e
          | .ok entries => .ok (refEntry :: padTo c.xvaTimes.length entries, exercisedState)
        else
          match (if stickyCloseOutRun then .ok exercisedState
                 else computeExercised c effPaths initialStateRVs) with
          | .error e => .error e
          | .ok exercised =>
            .ok (refEntry ::
                   padTo c.xvaTimes.length
                     ((replayTrace c effPaths exercised).map (fun r => r.value)),
                 exercised)

/-! ### Cash-flow classification (McMultiLegBaseEngine::createCashflowInfo) -/

/-- The terminal coupon shape of a cash flow after the wrapper layers
(fx-linked notional, stripped cap/floor, capped/floored) have been peeled
off by the dynamic dispatch cascade of createCashflowInfo.  unrecognized
stands for any flow that matches none of the handled dynamic casts and so
falls through to the QL_FAIL at the end of the method. -/
inductive FlowKind where
  | fixedOrSimple : FlowKind
  | fxLinkedCashFlow : FlowKind
  | ibor : FlowKind
  | cms : FlowKind
  | overnightCompounded : FlowKind
  | cappedFlooredOvernight : FlowKind
  | overnightAveraged : FlowKind
  | cappedFlooredAveraged : FlowKind
  | bmaAveraged : FlowKind
  | cappedFlooredBma : FlowKind
  | subPeriods : FlowKind
  | unrecognized : FlowKind
deriving DecidableEq

/-- An input cash flow as the classifier sees it.  Dates are serial day
numbers; accrualStartDate is some date exactly when the flow casts to a
Coupon.  The simulation times the amount function of the flow requires
(fixing times of the coupon schedule data, an external collaborator) are
carried as data. -/
structure Flow where
  payDate : ℤ
  accrualStartDate : Option ℤ
  kind : FlowKind
  simTimes : List ℚ
deriving DecidableEq

/-- A flow is recognized when its shape matches one of the handled coupon
kinds of the dispatch cascade. -/
def isRecognizedFlow (f : Flow) : Bool := f.kind ≠ FlowKind.unrecognized

/-- The cash-flow descriptor produced by createCashflowInfo (the amount
function, which depends on the external model, is abstracted away; the
per-flow value it produces enters the calibration as the cfValue
parameter below). -/
structure CashflowInfo where
  legNo : ℕ
  cfNo : ℕ
  payTime : ℚ
  exIntoCriterionTime : ℚ
  simulationTimes : List ℚ
deriving DecidableEq

instance : Inhabited CashflowInfo := ⟨0, 0, 0, 0, []⟩

/-- The hand-picked epsilon added to the accrual start time when deriving
the exercise-into cutoff of a coupon (constexpr Real tinyTime = 1E-10). -/
def tinyTime : ℚ := 1 / 10000000000

/-- The fatal unrecognized-coupon message of createCashflowInfo, naming the
leg and the cash-flow index. -/
def unrecognizedMsg (legNo cfNo : ℕ) : String :=
  ("McMultiLegBaseEngine::createCashflowInfo(): unhandled coupon leg ") ++ toString legNo ++
    (" cashflow ") ++ toString cfNo

/-- The fatal message of the accrual-start assumption check of
createCashflowInfo. -/
def accrualOrderMsg (legNo cfNo : ℕ) : String :=
  ("McMultiLegBaseEngine::createCashflowInfo(): coupon leg ") ++ toString legNo ++
    (" cashflow ") ++ toString cfNo ++
    (" has accrual start date >= pay date, which breaks an assumption in the engine.")

/-- The descriptor createCashflowInfo builds on success: pay time and
exercise-into cutoff (accrual start time plus tinyTime for coupons, the pay
time itself for non-coupon flows). -/
def mkCashflowInfo (tm : ℤ → ℚ) (f : Flow) (legNo cfNo : ℕ) : CashflowInfo :=
  { legNo := legNo, cfNo := cfNo, payTime := tm f.payDate,
    exIntoCriterionTime :=
      match f.accrualStartDate with
      | some a => tm a + tinyTime
      | none => tm f.payDate,
    simulationTimes := f.simTimes }

/-- McMultiLegBaseEngine::createCashflowInfo: checks the coupon accrual
ordering assumption, then dispatches on the flow shape; a flow matching no
handled shape is a fatal unrecognized-coupon error naming leg and cash-flow
index. -/
def createCashflowInfoM (tm : ℤ → ℚ) (f : Flow) (legNo cfNo : ℕ) :
    Except String CashflowInfo :=
  match f.accrualStartDate with
  | some a =>
    if a < f.payDate then
      if f.kind = FlowKind.unrecognized then .error (unrecognizedMsg legNo cfNo)
      else .ok (mkCashflowInfo tm f legNo cfNo)
    else .error (accrualOrderMsg legNo cfNo)
  | none =>
    if f.kind = FlowKind.unrecognized then .error (unrecognizedMsg legNo cfNo)
    else .ok (mkCashflowInfo tm f legNo cfNo)

/-- The alive cash flows of a leg: those paying strictly after today (flows
with pay date at or before today are skipped by calculate without
incrementing the cash-flow counter). -/
def aliveFlows (today : ℤ) (leg : List Flow) : List Flow :=
  leg.filter (fun f => decide (today < f.payDate))

/-- The classification loop of calculate over one leg: skip dead flows
without incrementing the counter, classify alive ones in order, propagating
the first classification error. -/
def classifyLeg (tm : ℤ → ℚ) (today : ℤ) (legNo : ℕ) :
    List Flow → ℕ → Except String (List CashflowInfo)
  | [], _ => .ok []
  | f :: fs, cfNo =>
    if f.payDate ≤ today then classifyLeg tm today legNo fs cfNo
    else
      match createCashflowInfoM tm f legNo cfNo with
      | .error e => .error e
      | .ok info =>
        match classifyLeg tm today legNo fs (cfNo + 1) with
        | .error e => .error e
        | .ok rest => .ok (info :: rest)

/-- The classification loop of calculate over all legs, legNo counting every
leg. -/
def classifyFlows (tm : ℤ → ℚ) (today : ℤ) :
    List (List Flow) → ℕ → Except String (List CashflowInfo)
  | [], _ => .ok []
  | leg :: legs, legNo =>
    match classifyLeg tm today legNo leg 0 with
    | .error e => .error e
    | .ok infos =>
      match classifyFlows tm today legs (legNo + 1) with
      | .error e => .error e
      | .ok rest => .ok (infos ++ rest)

/-! ### Backward induction calibration (McMultiLegBaseEngine::calculate) -/

/-- The classification state of a cash flow during the backward walk
(CfStatus of calculate); opn stands for the open state. -/
inductive CfStatus where
  | opn : CfStatus
  | cached : CfStatus
  | done : CfStatus
deriving DecidableEq

/-- The running aggregates of the backward walk. -/
structure CalibState where
  pathValueUndDirty : RandomVariable
  pathValueUndExInto : RandomVariable
  pathValueOption : RandomVariable
  cfStatus : List CfStatus
  amountCache : List RandomVariable

/-- The per-time coefficient records the backward walk produces (an unset
coefficient vector, like a default-constructed Array, is the empty list). -/
structure StepCoeffs where
  coeffsUndExInto : List ℚ
  coeffsContinuationValue : List ℚ
  coeffsOption : List ℚ
  coeffsUndDirty : List ℚ
deriving DecidableEq

/-- The in-loop cash flow processing of calculate at grid time t: an open
flow with cutoff still in the future is valued into both aggregates and
done; an open flow past the cutoff but not yet paid is valued into the
dirty aggregate and cached; a cached flow past the cutoff moves its cached
amount into the exercise-into aggregate, is cleared and done. -/
def processCashflowsAt (cfValue : ℕ → RandomVariable) (cfs : List CashflowInfo)
    (t : ℚ) (st : CalibState) : CalibState :=
  (List.range cfs.length).foldl (fun st i =>
    let cf := cfs.getD i default
    match st.cfStatus.getD i CfStatus.done with
    | CfStatus.opn =>
      if t < cf.exIntoCriterionTime then
        { st with pathValueUndDirty := rvAdd st.pathValueUndDirty (cfValue i),
                  pathValueUndExInto := rvAdd st.pathValueUndExInto (cfValue i),
                  cfStatus := st.cfStatus.set i CfStatus.done }
      else if t < cf.payTime then
        { st with pathValueUndDirty := rvAdd st.pathValueUndDirty (cfValue i),
                  amountCache := st.amountCache.set i (cfValue i),
                  cfStatus := st.cfStatus.set i CfStatus.cached }
      else st
    | CfStatus.cached =>
      if t < cf.exIntoCriterionTime then
        { st with pathValueUndExInto := rvAdd st.pathValueUndExInto
                    (st.amountCache.getD i (rvConst 0)),
                  cfStatus := st.cfStatus.set i CfStatus.done,
                  amountCache := st.amountCache.set i (rvConst 0) }
      else st
    | CfStatus.done => st) st

/-- The exercise-time block of the backward walk: evaluate the immediate
exercise payoff from the exercise-into coefficients, regress the running
option value restricted to paths with positive exercise payoff to get
continuation coefficients, evaluate those, replace the option value by the
exercise-into value exactly where exercise value > continuation value and
exercise value > 0, and regress the updated option value.  evalC evaluates a
coefficient vector against the time-t regressor state; regC fits a
regression of a target against that state, optionally path-filtered.
Returns the continuation coefficients, the option coefficients and the
updated option value. -/
def calibratorExerciseStep (evalC : List ℚ → RandomVariable)
    (regC : RandomVariable → Option PathFilter → List ℚ)
    (coUndExInto : List ℚ) (pathValueUndExInto pathValueOption : RandomVariable) :
    List ℚ × List ℚ × RandomVariable :=
  let exerciseValue := evalC coUndExInto
  let coCont := regC pathValueOption (some (rvGt exerciseValue (rvConst 0)))
  let continuationValue := evalC coCont
  let newOptionValue := conditionalResult
    (filterAnd (rvGt exerciseValue continuationValue) (rvGt exerciseValue (rvConst 0)))
    pathValueUndExInto pathValueOption
  let coOpt := regC newOptionValue none
  (coCont, coOpt, newOptionValue)

/-- The backward walk over the merged exercise-xva grid, from the latest to
the earliest time (the time list argument is the grid reversed).  regCoeffs
and evalCoeffs abstract the external regression engine applied to the
calibration path states at a given time; cfValue abstracts
cashflowPathValue.  Returns the final state and the per-time coefficient
records in processing (descending time) order. -/
def backwardWalk (regCoeffs : ℚ → RandomVariable → Option PathFilter → List ℚ)
    (evalCoeffs : ℚ → List ℚ → RandomVariable) (cfValue : ℕ → RandomVariable)
    (cfs : List CashflowInfo) (exerciseTimes xvaTimes : List ℚ) (hasExercise : Bool) :
    List ℚ → CalibState → CalibState × List StepCoeffs
  | [], st => (st, [])
  | t :: ts, st =>
    let st1 := processCashflowsAt cfValue cfs t st
    let coUndExInto := if hasExercise then regCoeffs t st1.pathValueUndExInto none else []
    let step :=
      if t ∈ exerciseTimes then
        calibratorExerciseStep (evalCoeffs t) (regCoeffs t) coUndExInto
          st1.pathValueUndExInto st1.pathValueOption
      else ([], [], st1.pathValueOption)
    let coUndDirty := if t ∈ xvaTimes then regCoeffs t st1.pathValueUndDirty none else []
    let coOpt := if hasExercise then regCoeffs t step.2.2 none else step.2.1
    let st2 := { st1 with pathValueOption := step.2.2 }
    let rec2 := backwardWalk regCoeffs evalCoeffs cfValue cfs exerciseTimes xvaTimes hasExercise ts st2
    (rec2.1, { coeffsUndExInto := coUndExInto, coeffsContinuationValue := step.1,
               coeffsOption := coOpt, coeffsUndDirty := coUndDirty } :: rec2.2)

/-- Ordered insertion into a sorted duplicate-free list (std::set
insertion). -/
def insertTime (x : ℚ) : List ℚ → List ℚ
  | [] => [x]
  | y :: ys => if x < y then x :: y :: ys else if x = y then y :: ys else y :: insertTime x ys

/-- Sorted duplicate-free time set built from a list (std::set semantics of
the time grids). -/
def sortedDedup (l : List ℚ) : List ℚ := l.foldl (fun acc x => insertTime x acc) []

/-- All the inputs McMultiLegBaseEngine::calculate consumes, with the
external collaborators (regression engine, cash flow path values including
numeraire deflation, expectation over calibration paths, reference date
numeraire) abstracted as functions.  numCurrencies and numPayers stand for
the sizes of the currency and payer arrays set by derived engines. -/
structure CalcInputs where
  tm : ℤ → ℚ
  today : ℤ
  legs : List (List Flow)
  numCurrencies : ℕ
  numPayers : ℕ
  exercise : Option (List ℤ)
  simulationDates : List ℤ
  calibrationSamples : ℕ
  regCoeffs : ℚ → RandomVariable → Option PathFilter → List ℚ
  evalCoeffs : ℚ → List ℚ → RandomVariable
  cfValue : ℕ → RandomVariable
  expectation : RandomVariable → ℚ
  numeraire0 : ℚ

/-- The plain-data outputs of calculate: the two reference-date values and
the coefficient tables handed to the amc calculator, plus the time grids
and the number of calibration samples consumed by the path simulation
phase. -/
structure CalcOutputs where
  resultUnderlyingNpv : ℚ
  resultValue : ℚ
  coeffsUndDirty : List (List ℚ)
  coeffsUndExInto : List (List ℚ)
  coeffsContinuationValue : List (List ℚ)
  coeffsOption : List (List ℚ)
  exerciseXvaTimes : List ℚ
  exerciseTimes : List ℚ
  xvaTimes : List ℚ
  calibrationSamplesUsed : ℕ
deriving DecidableEq

/-- McMultiLegBaseEngine::calculate: size checks on the leg data, cash flow
classification (aborting on the first classification error, before any path
is simulated), construction of the time grids, the fatal empty-grid check,
the backward induction walk and the two reference-date results (the option
value equals the underlying value when no exercise is given). -/
def calculateModel (I : CalcInputs) : Except String CalcOutputs :=
  if I.numCurrencies ≠ I.legs.length then
    .error ("McMultiLegBaseEngine: number of legs does not match currencies")
  else if I.numPayers ≠ I.legs.length then
    .error ("McMultiLegBaseEngine: number of legs does not match payer flag")
  else
    match classifyFlows I.tm I.today I.legs 0 with
    | .error e => .error e
    | .ok cfs =>
      let exerciseTimes :=
        sortedDedup (((I.exercise.getD []).filter (fun d => decide (I.today < d))).map I.tm)
      let xvaTimes := sortedDedup (I.simulationDates.map I.tm)
      let cashflowGenTimes :=
        (sortedDedup (cfs.foldr (fun cf acc => cf.simulationTimes ++ (cf.payTime :: acc)) [])).filter
          (fun x => decide (x ≠ 0))
      let exerciseXvaTimes := sortedDedup (exerciseTimes ++ xvaTimes)
      let simulationTimes := sortedDedup (cashflowGenTimes ++ exerciseTimes ++ xvaTimes)
      if simulationTimes.isEmpty then
        .error ("McMultiLegBaseEngine::calculate(): no simulation times, this is not expected.")
      else
        let hasExercise := I.exercise.isSome
        let initState : CalibState :=
          { pathValueUndDirty := rvConst 0, pathValueUndExInto := rvConst 0,
            pathValueOption := rvConst 0,
            cfStatus := List.replicate cfs.length CfStatus.opn,
            amountCache := List.replicate cfs.length (rvConst 0) }
        let walk := backwardWalk I.regCoeffs I.evalCoeffs I.cfValue cfs exerciseTimes xvaTimes
          hasExercise exerciseXvaTimes.reverse initState
        let finalUnd := (List.range cfs.length).foldl
          (fun v i => if walk.1.cfStatus.getD i CfStatus.done = CfStatus.opn
                      then rvAdd v (I.cfValue i) else v)
          walk.1.pathValueUndDirty
        let resultUnderlyingNpv := I.expectation finalUnd * I.numeraire0
        let resultValue :=
          if I.exercise.isNone then resultUnderlyingNpv
          else I.expectation walk.1.pathValueOption * I.numeraire0
        .ok { resultUnderlyingNpv := resultUnderlyingNpv, resultValue := resultValue,
              coeffsUndDirty := walk.2.reverse.map (fun s => s.coeffsUndDirty),
              coeffsUndExInto := walk.2.reverse.map (fun s => s.coeffsUndExInto),
              coeffsContinuationValue := walk.2.reverse.map (fun s => s.coeffsContinuationValue),
              coeffsOption := walk.2.reverse.map (fun s => s.coeffsOption),
              exerciseXvaTimes := exerciseXvaTimes, exerciseTimes := exerciseTimes,
              xvaTimes := xvaTimes, calibrationSamplesUsed := I.calibrationSamples }

/-! ### List helper lemmas -/

theorem getD_set_ne {α : Type} : ∀ (l : List α) (i j : ℕ) (v d : α), i ≠ j →
    (l.set i v).getD j d = l.getD j d
  | [], _, _, _, _, _ => rfl
  | _ :: _, 0, 0, _, _, h => absurd rfl h
  | _ :: _, 0, _ + 1, _, _, _ => rfl
  | _ :: _, _ + 1, 0, _, _, _ => rfl
  | _ :: l, i + 1, j + 1, v, d, h =>
    getD_set_ne l i j v d (fun hij => h (by omega))

theorem getD_set_self {α : Type} : ∀ (l : List α) (i : ℕ) (v d : α), i < l.length →
    (l.set i v).getD i d = v
  | [], i, _, _, h => absurd h (by simp)
  | _ :: _, 0, _, _, _ => rfl
  | _ :: l, i + 1, v, d, h => getD_set_self l i v d (by simpa using h)

theorem getD_replicate_self {α : Type} (a : α) : ∀ (n k : ℕ),
    (List.replicate n a).getD k a = a
  | 0, _ => rfl
  | _ + 1, 0 => rfl
  | n + 1, k + 1 => getD_replicate_self a n k

theorem getD_mem {α : Type} : ∀ (l : List α) (k : ℕ) (d : α), k < l.length →
    l.getD k d ∈ l
  | [], k, _, h => absurd h (by simp)
  | a :: _, 0, _, _ => List.mem_cons_self a _
  | _ :: l, k + 1, d, h => List.mem_cons_of_mem _ (getD_mem l k d (by simpa using h))

theorem getD_cons_succ {α : Type} (a : α) (l : List α) (k : ℕ) (d : α) :
    (a :: l).getD (k + 1) d = l.getD k d := rfl

/-! ### Claim C3 -/

/-- Claim C3: in the backward-induction calibrator, the option value update
performed at every exercise time sets, per path, the running option value to
the exercise-into value exactly when the regressed exercise value is
strictly greater than the regressed continuation value and strictly greater
than zero; on ties, or when the exercise value is not positive, the option
value is left unchanged. -/
theorem calibrator_option_update_characterization
    (evalC : List ℚ → RandomVariable) (regC : RandomVariable → Option PathFilter → List ℚ)
    (coUndExInto : List ℚ) (undExInto optVal : RandomVariable)
    (ev cv : RandomVariable)
    (hev : ev = evalC coUndExInto)
    (hcv : cv = evalC (regC optVal (some (rvGt ev (rvConst 0)))))
    (p : ℕ) :
    (calibratorExerciseStep evalC regC coUndExInto undExInto optVal).2.2 p
      = (if cv p < ev p ∧ 0 < ev p then undExInto p else optVal p)
    ∧ (ev p = cv p →
        (calibratorExerciseStep evalC regC coUndExInto undExInto optVal).2.2 p = optVal p)
    ∧ (ev p ≤ 0 →
        (calibratorExerciseStep evalC regC coUndExInto undExInto optVal).2.2 p = optVal p) := by
  subst hev
  have hmain : (calibratorExerciseStep evalC regC coUndExInto undExInto optVal).2.2 p
      = (if cv p < (evalC coUndExInto) p ∧ 0 < (evalC coUndExInto) p
         then undExInto p else optVal p) := by
    simp only [calibratorExerciseStep, conditionalResult, filterAnd, rvGt, rvConst, ← hcv]
    by_cases h1 : cv p < evalC coUndExInto p <;>
      by_cases h2 : (0 : ℚ) < evalC coUndExInto p <;>
      simp [h1, h2]
  refine ⟨hmain, fun htie => ?_, fun hnp => ?_⟩
  · rw [hmain, if_neg]
    rintro ⟨hlt, -⟩
    exact absurd htie (ne_of_gt hlt)
  · rw [hmain, if_neg]
    rintro ⟨-, hpos⟩
    exact absurd hnp (not_le_of_lt hpos)

/-- Witness for claim C3 at a concrete input: the regressed exercise value
is 2, the continuation value 1, so the option value is set to the
exercise-into value 9. -/
theorem calibrator_option_update_characterization_witness :
    (calibratorExerciseStep (fun co => rvConst (co.headD 0)) (fun _ _ => [1]) [2]
      (rvConst 9) (rvConst 4)).2.2 0 = 9 := by
  have h := calibrator_option_update_characterization
    (fun co => rvConst (co.headD 0)) (fun _ _ => [1]) [2]
    (rvConst 9) (rvConst 4) (rvConst 2) (rvConst 1) rfl rfl 0
  rw [h.1]
  norm_num [rvConst]

/-! ### Claim C2 -/

/-- Claim C2: for an instrument with no exercise schedule (a null exercise
object), the reference-date option value returned by calculate equals the
reference-date underlying value exactly. -/
theorem calculate_no_exercise_result_eq_underlying
    (I : CalcInputs) (out : CalcOutputs)
    (hex : I.exercise = none)
    (h : calculateModel I = .ok out) :
    out.resultValue = out.resultUnderlyingNpv := by
  simp only [calculateModel] at h
  split at h
  · exact absurd h (by simp)
  · split at h
    · exact absurd h (by simp)
    · split at h
      · exact absurd h (by simp)
      · split at h
        · exact absurd h (by simp)
        · rw [Except.ok.injEq] at h
          subst h
          simp [hex]

/-- Witness for claim C2: a concrete single-leg instrument with a fixed-rate
coupon and no exercise schedule; calculate succeeds and returns equal option
and underlying values. -/
def c2SampleInputs : CalcInputs :=
  { tm := fun d => (d : ℚ), today := 0,
    legs := [[{ payDate := 10, accrualStartDate := some 0, kind := FlowKind.fixedOrSimple,
                simTimes := [] }]],
    numCurrencies := 1, numPayers := 1, exercise := none, simulationDates := [5],
    calibrationSamples := 7,
    regCoeffs := fun _ _ _ => [], evalCoeffs := fun _ _ => rvConst 0,
    cfValue := fun _ => rvConst 0, expectation := fun x => x 0, numeraire0 := 1 }

/-- Helper to read the option value off a calculate result (error default
0). -/
def resultValueOf (r : Except String CalcOutputs) : ℚ :=
  match r with
  | .ok o => o.resultValue
  | .error _ => 0

/-- Helper to read the underlying value off a calculate result (error
default 1, distinct from the error default of resultValueOf so an error
result never makes the two agree trivially). -/
def resultUnderlyingOf (r : Except String CalcOutputs) : ℚ :=
  match r with
  | .ok o => o.resultUnderlyingNpv
  | .error _ => 1

/-- Whether a calculate result is a success. -/
def calcOk (r : Except String CalcOutputs) : Bool :=
  match r with
  | .ok _ => true
  | .error _ => false

theorem calculate_no_exercise_result_eq_underlying_witness :
    calcOk (calculateModel c2SampleInputs) = true ∧
    resultValueOf (calculateModel c2SampleInputs)
      = resultUnderlyingOf (calculateModel c2SampleInputs) := by
  have hok : calcOk (calculateModel c2SampleInputs) = true := by decide
  refine ⟨hok, ?_⟩
  cases hh : calculateModel c2SampleInputs with
  | error e => rw [hh] at hok; exact absurd hok (by simp [calcOk])
  | ok o =>
    have hr := calculate_no_exercise_result_eq_underlying c2SampleInputs o rfl hh
    simpa [resultValueOf, resultUnderlyingOf] using hr

/-! ### Claim C7 -/

/-- Claim C7: every cash-flow descriptor produced by the classifier has an
exercise-into cutoff time at most the pay time; for coupons the cutoff is
the accrual-start time plus the tiny epsilon, for non-coupon flows it equals
the pay time.  The hypothesis hgap is the day-counter contract: the time of
a strictly earlier date is smaller by at least one day as a year fraction
(at least 1/366, which exceeds the epsilon); the classifier itself enforces
accrual start date < pay date for coupons. -/
theorem cashflow_cutoff_le_payTime
    (tm : ℤ → ℚ)
    (hgap : ∀ d1 d2 : ℤ, d1 < d2 → tm d1 + 1 / 366 ≤ tm d2)
    (f : Flow) (legNo cfNo : ℕ) (info : CashflowInfo)
    (h : createCashflowInfoM tm f legNo cfNo = .ok info) :
    info.exIntoCriterionTime ≤ info.payTime
    ∧ (∀ a : ℤ, f.accrualStartDate = some a → info.exIntoCriterionTime = tm a + tinyTime)
    ∧ (f.accrualStartDate = none → info.exIntoCriterionTime = info.payTime) := by
  cases hacc : f.accrualStartDate with
  | none =>
    simp only [createCashflowInfoM, hacc] at h
    split at h
    · exact absurd h (by simp)
    · rw [Except.ok.injEq] at h
      subst h
      refine ⟨?_, fun a2 ha2 => absurd ha2 (by simp), fun _ => ?_⟩
      · simp [mkCashflowInfo, hacc]
      · simp [mkCashflowInfo, hacc]
  | some a =>
    by_cases hlt : a < f.payDate
    · simp only [createCashflowInfoM, hacc, if_pos hlt] at h
      split at h
      · exact absurd h (by simp)
      · rw [Except.ok.injEq] at h
        subst h
        have hle := hgap a f.payDate hlt
        refine ⟨?_, fun a2 ha2 => ?_, fun hn => absurd hn (by simp)⟩
        · simp only [mkCashflowInfo, hacc]
          have htt : tinyTime ≤ 1 / 366 := by norm_num [tinyTime]
          linarith
        · rw [Option.some.injEq] at ha2
          subst ha2
          simp [mkCashflowInfo, hacc]
    · simp only [createCashflowInfoM, hacc, if_neg hlt] at h
      exact absurd h (by simp)

/-- A concrete coupon flow for the C7 witness. -/
def c7SampleFlow : Flow :=
  { payDate := 10, accrualStartDate := some 0, kind := FlowKind.ibor, simTimes := [] }

/-- Witness for claim C7 at a concrete coupon: the cutoff of a coupon
accruing from day 0 and paying on day 10 is below its pay time. -/
theorem cashflow_cutoff_le_payTime_witness :
    (mkCashflowInfo (fun d => (d : ℚ)) c7SampleFlow 0 0).exIntoCriterionTime
      ≤ (mkCashflowInfo (fun d => (d : ℚ)) c7SampleFlow 0 0).payTime := by
  have hgap : ∀ d1 d2 : ℤ, d1 < d2 → (fun d => (d : ℚ)) d1 + 1 / 366 ≤ (fun d => (d : ℚ)) d2 := by
    intro d1 d2 hd
    simp only
    have h1 : (d1 : ℚ) + 1 ≤ (d2 : ℚ) := by exact_mod_cast Int.add_one_le_iff.mpr hd
    linarith
  exact (cashflow_cutoff_le_payTime (fun d => (d : ℚ)) hgap c7SampleFlow 0 0
    (mkCashflowInfo (fun d => (d : ℚ)) c7SampleFlow 0 0) rfl).1

/-! ### Claim C9 -/

/-- Claim C9: with stickyCloseOutRun = false, the result vector returned by
simulatePath is a deterministic function of the calculator data and the
supplied path times, path states and relevant-time mask: it does not depend
on the exercised-indicator state retained on the calculator, so two calls
with identical inputs return identical result vectors. -/
theorem simulatePath_deterministic (c : AmcCalc) (pathTimes : List ℚ)
    (paths : List (List RandomVariable)) (isRelevantTime : List Bool)
    (e1 e2 : List PathFilter) :
    (simulatePath c pathTimes paths isRelevantTime false e1).map Prod.fst
      = (simulatePath c pathTimes paths isRelevantTime false e2).map Prod.fst := by
  simp only [simulatePath, Bool.false_eq_true, if_false]
  repeat (first | rfl | split)

/-! ### Invariants of the result-population loop -/

/-- The wasExercised update preserves a true entry. -/
theorem nextWE_true_of (c : AmcCalc) (exercised : List PathFilter) (t : ℚ)
    (exerciseCounter : ℕ) (wasEx : PathFilter) (p : ℕ) (hw : wasEx p = true) :
    nextWE c exercised t exerciseCounter wasEx p = true := by
  unfold nextWE
  split
  · simp [filterOr, hw]
  · exact hw

/-- If the accumulated wasExercised filter is already true at a path, every
record the loop emits from there on carries a true wasExercised at that
path. -/
theorem buildTrace_wasEx_all (c : AmcCalc) (effPaths : List (List RandomVariable))
    (exercised : List PathFilter) (p : ℕ) :
    ∀ (ts : List ℚ) (counter xvaCounter exerciseCounter : ℕ) (cashAcc wasEx : PathFilter),
      wasEx p = true →
      ∀ r ∈ buildTrace c effPaths exercised ts counter xvaCounter exerciseCounter cashAcc wasEx,
        r.wasExercised p = true := by
  intro ts
  induction ts with
  | nil => intro _ _ _ _ _ _ r hr; simp [buildTrace] at hr
  | cons t ts ih =>
    intro counter xvaCounter exerciseCounter cashAcc wasEx hw r hr
    have hw2 := nextWE_true_of c exercised t exerciseCounter wasEx p hw
    by_cases hx : t ∈ c.xvaTimes
    · rw [buildTrace, if_pos hx] at hr
      rcases List.mem_cons.mp hr with rfl | hr2
      · exact hw2
      · exact ih _ _ _ _ _ hw2 r hr2
    · rw [buildTrace, if_neg hx] at hr
      exact ih _ _ _ _ _ hw2 r hr

/-- The accumulated wasExercised filter is monotone along the emitted
records: once true at a path in some record, it is true in every later
record. -/
theorem buildTrace_wasEx_mono (c : AmcCalc) (effPaths : List (List RandomVariable))
    (exercised : List PathFilter) (p : ℕ) :
    ∀ (ts : List ℚ) (counter xvaCounter exerciseCounter : ℕ) (cashAcc wasEx : PathFilter)
      (k1 k2 : ℕ), k1 ≤ k2 →
      k2 < (buildTrace c effPaths exercised ts counter xvaCounter exerciseCounter cashAcc wasEx).length →
      ((buildTrace c effPaths exercised ts counter xvaCounter exerciseCounter cashAcc wasEx).getD k1
        defaultXvaRecord).wasExercised p = true →
      ((buildTrace c effPaths exercised ts counter xvaCounter exerciseCounter cashAcc wasEx).getD k2
        defaultXvaRecord).wasExercised p = true := by
  intro ts
  induction ts with
  | nil =>
    intro counter xvaCounter exerciseCounter cashAcc wasEx k1 k2 _ h2 _
    simp [buildTrace] at h2
  | cons t ts ih =>
    intro counter xvaCounter exerciseCounter cashAcc wasEx k1 k2 h12 h2 h1
    by_cases hx : t ∈ c.xvaTimes
    · rw [buildTrace, if_pos hx] at h2 h1 ⊢
      cases k1 with
      | zero =>
        cases k2 with
        | zero => exact h1
        | succ k2 =>
          have hlen : k2 < (buildTrace c effPaths exercised ts (counter + 1) (xvaCounter + 1)
              (nextEC c t exerciseCounter)
              (nextCashAcc c cashAcc (nextWE c exercised t exerciseCounter wasEx))
              (nextWE c exercised t exerciseCounter wasEx)).length := by
            simpa using h2
          exact buildTrace_wasEx_all c effPaths exercised p ts _ _ _ _ _ h1 _
            (getD_mem _ k2 _ hlen)
      | succ k1 =>
        cases k2 with
        | zero => omega
        | succ k2 => exact ih _ _ _ _ _ k1 k2 (by omega) (by simpa using h2) h1
    · rw [buildTrace, if_neg hx] at h2 h1 ⊢
      exact ih _ _ _ _ _ k1 k2 h12 h2 h1

/-- Every emitted record satisfies the defining relations between its
fields: the raw exercised value selects the exercise-into regression where
the indicator of the current exercise period holds and the dirty regression
elsewhere; the masked exercised value applies the cash-settlement
already-accounted-for mask (and is the raw value under physical
settlement); the emitted result value is the floored conditional select of
the masked exercised value and the option value. -/
theorem buildTrace_record_shape (c : AmcCalc) (effPaths : List (List RandomVariable))
    (exercised : List PathFilter) :
    ∀ (ts : List ℚ) (counter xvaCounter exerciseCounter : ℕ) (cashAcc wasEx : PathFilter),
      ∀ r ∈ buildTrace c effPaths exercised ts counter xvaCounter exerciseCounter cashAcc wasEx,
        r.exercisedValueRaw = conditionalResult r.stillValid r.exIntoValue r.dirtyValue
        ∧ r.exercisedValueMasked =
            (if c.settlement = Settlement.Cash
             then applyInverseFilter r.exercisedValueRaw r.cashAccountedBefore
             else r.exercisedValueRaw)
        ∧ r.value = rvMax (rvConst 0)
            (conditionalResult r.wasExercised r.exercisedValueMasked r.optionValue) := by
  intro ts
  induction ts with
  | nil => intro _ _ _ _ _ r hr; simp [buildTrace] at hr
  | cons t ts ih =>
    intro counter xvaCounter exerciseCounter cashAcc wasEx r hr
    by_cases hx : t ∈ c.xvaTimes
    · rw [buildTrace, if_pos hx] at hr
      rcases List.mem_cons.mp hr with rfl | hr2
      · exact ⟨rfl, rfl, rfl⟩
      · exact ih _ _ _ _ _ r hr2
    · rw [buildTrace, if_neg hx] at hr
      exact ih _ _ _ _ _ r hr

/-- Under cash settlement, the already-accounted-for mask recorded with the
k-th emitted record is true at a path exactly when the incoming mask was, or
the accumulated wasExercised filter was true at that path in some earlier
record. -/
theorem buildTrace_cashAcc_iff (c : AmcCalc) (effPaths : List (List RandomVariable))
    (exercised : List PathFilter) (hcash : c.settlement = Settlement.Cash) (p : ℕ) :
    ∀ (ts : List ℚ) (counter xvaCounter exerciseCounter : ℕ) (cashAcc wasEx : PathFilter)
      (k : ℕ),
      k < (buildTrace c effPaths exercised ts counter xvaCounter exerciseCounter cashAcc wasEx).length →
      (((buildTrace c effPaths exercised ts counter xvaCounter exerciseCounter cashAcc wasEx).getD k
          defaultXvaRecord).cashAccountedBefore p = true ↔
        (cashAcc p = true ∨ ∃ j, j < k ∧
          ((buildTrace c effPaths exercised ts counter xvaCounter exerciseCounter cashAcc wasEx).getD j
            defaultXvaRecord).wasExercised p = true)) := by
  intro ts
  induction ts with
  | nil =>
    intro counter xvaCounter exerciseCounter cashAcc wasEx k hk
    simp [buildTrace] at hk
  | cons t ts ih =>
    intro counter xvaCounter exerciseCounter cashAcc wasEx k hk
    by_cases hx : t ∈ c.xvaTimes
    · rw [buildTrace, if_pos hx] at hk ⊢
      cases k with
      | zero =>
        constructor
        · intro h
          exact Or.inl h
        · rintro (h | ⟨j, hj, -⟩)
          · exact h
          · omega
      | succ k =>
        have hk2 : k < (buildTrace c effPaths exercised ts (counter + 1) (xvaCounter + 1)
            (nextEC c t exerciseCounter)
            (nextCashAcc c cashAcc (nextWE c exercised t exerciseCounter wasEx))
            (nextWE c exercised t exerciseCounter wasEx)).length := by
          simpa using hk
        have hih := ih (counter + 1) (xvaCounter + 1) (nextEC c t exerciseCounter)
          (nextCashAcc c cashAcc (nextWE c exercised t exerciseCounter wasEx))
          (nextWE c exercised t exerciseCounter wasEx) k hk2
        constructor
        · intro hl
          rcases hih.mp hl with hca | ⟨j, hj, hwj⟩
          · have hca2 : (filterOr cashAcc (nextWE c exercised t exerciseCounter wasEx)) p = true := by
              simpa [nextCashAcc, hcash] using hca
            rcases Bool.or_eq_true_iff.mp (by simpa [filterOr] using hca2) with h | h
            · exact Or.inl h
            · exact Or.inr ⟨0, by omega, h⟩
          · exact Or.inr ⟨j + 1, by omega, hwj⟩
        · rintro (hca | ⟨j, hj, hwj⟩)
          · refine hih.mpr (Or.inl ?_)
            simp [nextCashAcc, hcash, filterOr, hca]
          · cases j with
            | zero =>
              have hwj2 : (nextWE c exercised t exerciseCounter wasEx) p = true := hwj
              refine hih.mpr (Or.inl ?_)
              simp [nextCashAcc, hcash, filterOr, hwj2]
            | succ j => exact hih.mpr (Or.inr ⟨j, by omega, hwj⟩)
    · rw [buildTrace, if_neg hx] at hk ⊢
      exact ih _ _ _ _ _ k hk

theorem getD_oob {α : Type} : ∀ (l : List α) (k : ℕ) (d : α), l.length ≤ k → l.getD k d = d
  | [], _, _, _ => rfl
  | _ :: _, 0, _, h => absurd h (by simp)
  | _ :: l, k + 1, d, h => getD_oob l k d (by simpa using h)

/-- Helpers to observe a simulatePath result: the entry at result index k
and path p (0 on error). -/
def resultEntryAt (r : Except String (List RandomVariable × List PathFilter)) (k p : ℕ) : ℚ :=
  match r with
  | .ok pr => pr.1.getD k (rvConst 0) p
  | .error _ => 0

/-- The exercised indicator at slot k and path p of a simulatePath result
(true on error, so an error can never witness an unexercised path). -/
def indicatorAt (r : Except String (List RandomVariable × List PathFilter)) (k p : ℕ) : Bool :=
  match r with
  | .ok pr => pr.2.getD k falseFilter p
  | .error _ => true

/-- Whether a simulatePath result is a success. -/
def simOk (r : Except String (List RandomVariable × List PathFilter)) : Bool :=
  match r with
  | .ok _ => true
  | .error _ => false

/-! ### Claim C1 -/

/-- Claim C1 (amended): the result entry at a valuation time is built per
path as follows: if the path has been exercised at some earlier exercise
time (accumulated wasExercised), the contribution is the exercise-into
regression value when the exercise is still valid for the current exercise
period, and the dirty regression value otherwise, with the cash-settlement
mask zeroing an already-accounted-for exercised contribution; if the path
has not been exercised, the contribution is the option-value regression
value (not the dirty-value regression, as the original claim stated); the
contribution is then floored at zero. -/
theorem replay_entry_per_path (c : AmcCalc) (effPaths : List (List RandomVariable))
    (exercised : List PathFilter) (r : XvaRecord)
    (hr : r ∈ replayTrace c effPaths exercised) (p : ℕ) :
    r.value p = max 0
      (if r.wasExercised p = true then
        (if c.settlement = Settlement.Cash ∧ r.cashAccountedBefore p = true then 0
         else if r.stillValid p = true then r.exIntoValue p else r.dirtyValue p)
       else r.optionValue p) := by
  obtain ⟨hraw, hmask, hval⟩ :=
    buildTrace_record_shape c effPaths exercised _ _ _ _ _ _ r hr
  rw [hval, hmask, hraw]
  by_cases hwe : r.wasExercised p = true <;>
    by_cases hc : c.settlement = Settlement.Cash <;>
    by_cases hca : r.cashAccountedBefore p = true <;>
    by_cases hsv : r.stillValid p = true <;>
    simp [rvMax, rvConst, conditionalResult, applyInverseFilter, hwe, hc, hca, hsv]

/-- The concrete calculator for the C1 counterexample and witness: one
exercise time 1, one valuation time 2, constant basis function; the dirty
regression gives 3 and the option regression 5 at the valuation time, and
the exercise never triggers (exercise-into regression -1 at the exercise
time). -/
def c1Calc : AmcCalc :=
  { externalModelIndices := [0], settlement := Settlement.Physical,
    exerciseXvaTimes := [1, 2], exerciseTimes := [1], xvaTimes := [2],
    coeffsUndDirty := [[0], [3]], coeffsUndExInto := [[-1], [7]],
    coeffsContinuationValue := [[0], [0]], coeffsOption := [[0], [5]],
    basisFns := [fun _ => 1], resultValue := 0, initialState := [0] }

/-- Counterexample to claim C1 as stated: on a path never exercised, the
result entry at the valuation time is the floored option-value regression
(5), not the floored dirty-value regression (3). -/
theorem replay_unexercised_entry_not_dirty :
    simOk (simulatePath c1Calc [2] [[rvConst 0]] [true] false []) = true
    ∧ indicatorAt (simulatePath c1Calc [2] [[rvConst 0]] [true] false []) 1 0 = false
    ∧ resultEntryAt (simulatePath c1Calc [2] [[rvConst 0]] [true] false []) 1 0 = 5
    ∧ max 0 (conditionalExpectation [rvConst 0] c1Calc.basisFns
        (c1Calc.coeffsUndDirty.getD 1 []) 0) = 3
    ∧ resultEntryAt (simulatePath c1Calc [2] [[rvConst 0]] [true] false []) 1 0
        ≠ max 0 (conditionalExpectation [rvConst 0] c1Calc.basisFns
            (c1Calc.coeffsUndDirty.getD 1 []) 0) := by
  norm_num [simulatePath, collectRelevant, collectRelevantAux, noExerciseEntriesAux,
    computeExercised, computeExercisedAux, replayTrace, buildTrace, xvaStepRecord,
    nextEC, nextWE, nextCashAcc, findFirstIdx, padTo, conditionalExpectation,
    conditionalResult, applyInverseFilter, filterAnd, filterOr, filterNot, rvGt,
    rvConst, rvAdd, rvScale, rvMax, falseFilter, simOk, indicatorAt, resultEntryAt,
    c1Calc, List.range_succ, List.getD]

/-- Witness for the amended claim C1 at the concrete calculator: the first
record of the result-population trace satisfies the per-path
characterization. -/
theorem replay_entry_per_path_witness :
    ((replayTrace c1Calc [[rvConst 0]] [falseFilter, falseFilter]).getD 0
        defaultXvaRecord).value 0
      = max 0
        (if ((replayTrace c1Calc [[rvConst 0]] [falseFilter, falseFilter]).getD 0
              defaultXvaRecord).wasExercised 0 = true then
          (if c1Calc.settlement = Settlement.Cash ∧
              ((replayTrace c1Calc [[rvConst 0]] [falseFilter, falseFilter]).getD 0
                defaultXvaRecord).cashAccountedBefore 0 = true then 0
           else if ((replayTrace c1Calc [[rvConst 0]] [falseFilter, falseFilter]).getD 0
              defaultXvaRecord).stillValid 0 = true then
             ((replayTrace c1Calc [[rvConst 0]] [falseFilter, falseFilter]).getD 0
                defaultXvaRecord).exIntoValue 0
           else ((replayTrace c1Calc [[rvConst 0]] [falseFilter, falseFilter]).getD 0
                defaultXvaRecord).dirtyValue 0)
         else ((replayTrace c1Calc [[rvConst 0]] [falseFilter, falseFilter]).getD 0
            defaultXvaRecord).optionValue 0) := by
  have hlen : 0 < (replayTrace c1Calc [[rvConst 0]] [falseFilter, falseFilter]).length := by
    norm_num [replayTrace, buildTrace, xvaStepRecord, nextEC, nextWE, nextCashAcc, c1Calc]
  exact replay_entry_per_path c1Calc [[rvConst 0]] [falseFilter, falseFilter] _
    (getD_mem _ 0 _ hlen) 0

/-! ### Claim C5 -/

/-- An entry of a padded result list is nonnegative at a path when every
listed entry is and the padding is the zero vector. -/
theorem padTo_getD_nonneg (n k p : ℕ) (l : List RandomVariable)
    (h : ∀ v ∈ l, 0 ≤ v p) : 0 ≤ (padTo n l).getD k (rvConst 0) p := by
  by_cases hk : k < (padTo n l).length
  · have hm := getD_mem (padTo n l) k (rvConst 0) hk
    generalize hgen : (padTo n l).getD k (rvConst 0) = v at hm ⊢
    rw [padTo] at hm
    rcases List.mem_append.mp hm with h1 | h2
    · exact h _ (List.take_subset n l h1)
    · rw [List.eq_of_mem_replicate h2]
      simp [rvConst]
  · rw [getD_oob _ _ _ (by omega)]
    simp [rvConst]

/-- Claim C5 (amended): for a calculator with a nonempty exercise time set,
every result value returned by simulatePath at every valuation time
(result indices 1 and up) and on every path is nonnegative, because those
entries are floored at zero.  (Without an exercise schedule the dirty
regression value is returned unfloored and can be negative, as the
counterexample shows.) -/
theorem simulatePath_result_nonneg_with_exercise (c : AmcCalc) (pathTimes : List ℚ)
    (paths : List (List RandomVariable)) (isRelevantTime : List Bool)
    (sticky : Bool) (st : List PathFilter)
    (hne : c.exerciseTimes ≠ [])
    (hok : simOk (simulatePath c pathTimes paths isRelevantTime sticky st) = true)
    (k p : ℕ) (hk : 1 ≤ k) :
    0 ≤ resultEntryAt (simulatePath c pathTimes paths isRelevantTime sticky st) k p := by
  cases hsim : simulatePath c pathTimes paths isRelevantTime sticky st with
  | error e => rw [hsim] at hok; simp [simOk] at hok
  | ok pr =>
    obtain ⟨res, exOut⟩ := pr
    simp only [resultEntryAt]
    simp only [simulatePath] at hsim
    split at hsim
    · exact absurd hsim (by simp)
    · split at hsim
      · exact absurd hsim (by simp)
      · split at hsim
        · exact absurd hsim (by simp)
        · split at hsim
          · exact absurd hsim (by simp)
          · split at hsim
            · rename_i hemp
              exact absurd (List.isEmpty_iff.mp hemp) hne
            · split at hsim
              · exact absurd hsim (by simp)
              · rw [Except.ok.injEq, Prod.mk.injEq] at hsim
                obtain ⟨hres, -⟩ := hsim
                subst hres
                cases k with
                | zero => omega
                | succ k =>
                  rw [getD_cons_succ]
                  apply padTo_getD_nonneg
                  intro v hv
                  rcases List.mem_map.mp hv with ⟨r, hrT, rfl⟩
                  obtain ⟨-, -, hval⟩ :=
                    buildTrace_record_shape _ _ _ _ _ _ _ _ _ r hrT
                  rw [hval]
                  exact le_max_left 0 _

/-- The concrete no-exercise calculator for the C5 counterexample: the
dirty regression at the single valuation time gives -3. -/
def c5Calc : AmcCalc :=
  { externalModelIndices := [0], settlement := Settlement.Physical,
    exerciseXvaTimes := [2], exerciseTimes := [], xvaTimes := [2],
    coeffsUndDirty := [[-3]], coeffsUndExInto := [[]],
    coeffsContinuationValue := [[]], coeffsOption := [[]],
    basisFns := [fun _ => 1], resultValue := 0, initialState := [0] }

/-- Counterexample to claim C5 as stated: for an instrument with no
exercise schedule the branch of simulatePath without exercise logic applies
no max-with-zero floor, and the returned valuation-time value is -3 < 0. -/
theorem simulatePath_no_exercise_entry_negative :
    simOk (simulatePath c5Calc [2] [[rvConst 0]] [true] false []) = true
    ∧ resultEntryAt (simulatePath c5Calc [2] [[rvConst 0]] [true] false []) 1 0 = -3
    ∧ ¬ (0 ≤ resultEntryAt (simulatePath c5Calc [2] [[rvConst 0]] [true] false []) 1 0) := by
  norm_num [simulatePath, collectRelevant, collectRelevantAux, noExerciseEntriesAux,
    computeExercised, computeExercisedAux, replayTrace, buildTrace, xvaStepRecord,
    nextEC, nextWE, nextCashAcc, findFirstIdx, padTo, conditionalExpectation,
    conditionalResult, applyInverseFilter, filterAnd, filterOr, filterNot, rvGt,
    rvConst, rvAdd, rvScale, rvMax, falseFilter, simOk, indicatorAt, resultEntryAt,
    c5Calc, List.range_succ, List.getD]

/-- Witness for the amended claim C5: the valuation-time entry of the
concrete exercise-bearing run is nonnegative. -/
theorem simulatePath_result_nonneg_with_exercise_witness :
    0 ≤ resultEntryAt (simulatePath c1Calc [2] [[rvConst 0]] [true] false []) 1 0 :=
  simulatePath_result_nonneg_with_exercise c1Calc [2] [[rvConst 0]] [true] false []
    (by norm_num [c1Calc])
    (by norm_num [simulatePath, collectRelevant, collectRelevantAux,
      computeExercised, computeExercisedAux, findFirstIdx, padTo, replayTrace, buildTrace,
      xvaStepRecord, nextEC, nextWE, nextCashAcc, conditionalExpectation, conditionalResult,
      applyInverseFilter, filterAnd, filterOr, filterNot, rvGt, rvConst, rvAdd, rvScale,
      rvMax, falseFilter, simOk, c1Calc, List.range_succ, List.getD])
    1 0 (by omega)

/-! ### Pointwise evaluation helpers for the batched primitives -/

theorem conditionalResult_pos (f : PathFilter) (a b : RandomVariable) (p : ℕ)
    (h : f p = true) : conditionalResult f a b p = a p := by
  simp [conditionalResult, h]

theorem conditionalResult_neg (f : PathFilter) (a b : RandomVariable) (p : ℕ)
    (h : f p = false) : conditionalResult f a b p = b p := by
  simp [conditionalResult, h]

theorem applyInverseFilter_pos (a : RandomVariable) (f : PathFilter) (p : ℕ)
    (h : f p = true) : applyInverseFilter a f p = 0 := by
  simp [applyInverseFilter, h]

theorem applyInverseFilter_neg (a : RandomVariable) (f : PathFilter) (p : ℕ)
    (h : f p = false) : applyInverseFilter a f p = a p := by
  simp [applyInverseFilter, h]

theorem rvMax_zero_apply (x : RandomVariable) (p : ℕ) :
    rvMax (rvConst 0) x p = max 0 (x p) := rfl

/-! ### Claim C6 -/

/-- Claim C6: under cash settlement the exercised contribution of a path
enters the simulatePath result at exactly one valuation time, the first one
at or after the exercise (the first trace record whose accumulated
wasExercised filter is true at the path): there the mask is still clear and
the raw exercised value is used; at every later valuation time the per-path
already-accounted-for mask zeroes the exercised value, and the result entry
is zero.  Under physical settlement no masking occurs: the raw exercised
value is applied at every valuation time from the exercise on. -/
theorem cash_exercised_contribution_once (c : AmcCalc)
    (effPaths : List (List RandomVariable)) (exercised : List PathFilter) (p : ℕ) :
    (c.settlement = Settlement.Cash →
      (∀ k1 k2 : ℕ, k1 < k2 → k2 < (replayTrace c effPaths exercised).length →
        ((replayTrace c effPaths exercised).getD k1 defaultXvaRecord).wasExercised p = true →
        ((replayTrace c effPaths exercised).getD k2 defaultXvaRecord).exercisedValueMasked p = 0
        ∧ ((replayTrace c effPaths exercised).getD k2 defaultXvaRecord).value p = 0)
      ∧ (∀ k : ℕ, k < (replayTrace c effPaths exercised).length →
          (∀ j, j < k →
            ((replayTrace c effPaths exercised).getD j defaultXvaRecord).wasExercised p = false) →
          ((replayTrace c effPaths exercised).getD k defaultXvaRecord).exercisedValueMasked p
            = ((replayTrace c effPaths exercised).getD k defaultXvaRecord).exercisedValueRaw p))
    ∧ (c.settlement = Settlement.Physical →
        ∀ r ∈ replayTrace c effPaths exercised,
          r.exercisedValueMasked = r.exercisedValueRaw
          ∧ (r.wasExercised p = true → r.value p = max 0 (r.exercisedValueRaw p))) := by
  constructor
  · intro hcash
    constructor
    · intro k1 k2 h12 hk2 hw1
      have hk2m := getD_mem (replayTrace c effPaths exercised) k2 defaultXvaRecord hk2
      obtain ⟨hraw, hmask, hval⟩ :=
        buildTrace_record_shape c effPaths exercised _ _ _ _ _ _ _ hk2m
      have hwk2 : ((replayTrace c effPaths exercised).getD k2
          defaultXvaRecord).wasExercised p = true :=
        buildTrace_wasEx_mono c effPaths exercised p c.exerciseXvaTimes 0 0 0
          falseFilter falseFilter k1 k2 (le_of_lt h12) hk2 hw1
      have hca : ((replayTrace c effPaths exercised).getD k2
          defaultXvaRecord).cashAccountedBefore p = true :=
        (buildTrace_cashAcc_iff c effPaths exercised hcash p c.exerciseXvaTimes 0 0 0
          falseFilter falseFilter k2 hk2).mpr (Or.inr ⟨k1, h12, hw1⟩)
      have hmz : ((replayTrace c effPaths exercised).getD k2
          defaultXvaRecord).exercisedValueMasked p = 0 := by
        rw [hmask, if_pos hcash]
        exact applyInverseFilter_pos _ _ _ hca
      refine ⟨hmz, ?_⟩
      rw [hval, rvMax_zero_apply, conditionalResult_pos _ _ _ _ hwk2, hmz]
      simp
    · intro k hk hprev
      have hkm := getD_mem (replayTrace c effPaths exercised) k defaultXvaRecord hk
      obtain ⟨hraw, hmask, hval⟩ :=
        buildTrace_record_shape c effPaths exercised _ _ _ _ _ _ _ hkm
      have hca : ((replayTrace c effPaths exercised).getD k
          defaultXvaRecord).cashAccountedBefore p = false := by
        cases hb : ((replayTrace c effPaths exercised).getD k
            defaultXvaRecord).cashAccountedBefore p with
        | false => rfl
        | true =>
          rcases (buildTrace_cashAcc_iff c effPaths exercised hcash p c.exerciseXvaTimes 0 0 0
            falseFilter falseFilter k hk).mp hb with hff | ⟨j, hj, hwj⟩
          · exact absurd hff (by simp [falseFilter])
          · have hwj2 : ((replayTrace c effPaths exercised).getD j
                defaultXvaRecord).wasExercised p = true := hwj
            rw [hprev j hj] at hwj2
            exact absurd hwj2 (by simp)
      rw [hmask, if_pos hcash]
      exact applyInverseFilter_neg _ _ _ hca
  · intro hphys r hr
    obtain ⟨hraw, hmask, hval⟩ :=
      buildTrace_record_shape c effPaths exercised _ _ _ _ _ _ r hr
    have hnc : ¬ c.settlement = Settlement.Cash := by simp [hphys]
    refine ⟨by rw [hmask, if_neg hnc], fun hwp => ?_⟩
    rw [hval, rvMax_zero_apply, conditionalResult_pos _ _ _ _ hwp, hmask, if_neg hnc]

/-- The concrete cash-settled calculator for the C6 witness: exercise time
1 before the two valuation times 2 and 3. -/
def c6Calc : AmcCalc :=
  { externalModelIndices := [0], settlement := Settlement.Cash,
    exerciseXvaTimes := [1, 2, 3], exerciseTimes := [1], xvaTimes := [2, 3],
    coeffsUndDirty := [[0], [3], [3]], coeffsUndExInto := [[9], [7], [7]],
    coeffsContinuationValue := [[0], [0], [0]], coeffsOption := [[0], [5], [5]],
    basisFns := [fun _ => 1], resultValue := 0, initialState := [0] }

/-- Witness for claim C6: with the path exercised at time 1, the exercised
value is taken unmasked at the first valuation time and zeroed (result
entry zero) at the second. -/
theorem cash_exercised_contribution_once_witness :
    ((replayTrace c6Calc [[rvConst 0], [rvConst 0]]
        [falseFilter, fun _ => true]).getD 1 defaultXvaRecord).exercisedValueMasked 0 = 0
    ∧ ((replayTrace c6Calc [[rvConst 0], [rvConst 0]]
        [falseFilter, fun _ => true]).getD 1 defaultXvaRecord).value 0 = 0
    ∧ ((replayTrace c6Calc [[rvConst 0], [rvConst 0]]
        [falseFilter, fun _ => true]).getD 0 defaultXvaRecord).exercisedValueMasked 0
      = ((replayTrace c6Calc [[rvConst 0], [rvConst 0]]
        [falseFilter, fun _ => true]).getD 0 defaultXvaRecord).exercisedValueRaw 0 := by
  have h := cash_exercised_contribution_once c6Calc [[rvConst 0], [rvConst 0]]
    [falseFilter, fun _ => true] 0
  obtain ⟨hc, -⟩ := h
  obtain ⟨h1, h2⟩ := hc rfl
  have hlen : (replayTrace c6Calc [[rvConst 0], [rvConst 0]]
      [falseFilter, fun _ => true]).length = 2 := by
    norm_num [replayTrace, buildTrace, xvaStepRecord, nextEC, nextWE, nextCashAcc, c6Calc]
  have hwe0 : ((replayTrace c6Calc [[rvConst 0], [rvConst 0]]
      [falseFilter, fun _ => true]).getD 0 defaultXvaRecord).wasExercised 0 = true := by
    norm_num [replayTrace, buildTrace, xvaStepRecord, nextEC, nextWE, nextCashAcc, c6Calc,
      filterOr, falseFilter, List.getD]
  exact ⟨(h1 0 1 (by omega) (by rw [hlen]; omega) hwe0).1,
         (h1 0 1 (by omega) (by rw [hlen]; omega) hwe0).2,
         h2 0 (by rw [hlen]; omega) (fun j hj => absurd hj (by omega))⟩

/-! ### Claims C4 and C10: the exercise indicator loop -/

theorem set_oob {α : Type} : ∀ (l : List α) (i : ℕ) (v : α), l.length ≤ i → l.set i v = l
  | [], _, _, _ => rfl
  | _ :: _, 0, _, h => absurd h (by simp)
  | a :: l, i + 1, v, h => by
    show a :: l.set i v = a :: l
    rw [set_oob l i v (by simpa using h)]

theorem findFirstIdx_none_of (p : ℚ → Bool) :
    ∀ l : List ℚ, (∀ x ∈ l, p x = false) → findFirstIdx p l = none
  | [], _ => rfl
  | x :: xs, h => by
    rw [findFirstIdx]
    rw [h x (List.mem_cons_self x xs)]
    simp only [if_false, Bool.false_eq_true]
    rw [findFirstIdx_none_of p xs (fun y hy => h y (List.mem_cons_of_mem x hy))]
    rfl

/-- Success observer for the exercise indicator computation. -/
def exerciseOk (r : Except String (List PathFilter)) : Bool :=
  match r with
  | .ok _ => true
  | .error _ => false

/-- The indicator at slot k and path p of an indicator computation result
(true on error). -/
def indicatorOfE (r : Except String (List PathFilter)) (k p : ℕ) : Bool :=
  match r with
  | .ok ex => ex.getD k falseFilter p
  | .error _ => true

/-- Positions of the indicator vector strictly above the slots the loop has
reached are never modified afterwards; in particular a break (an exercise
time beyond every xva time) freezes them.  The index hypothesis says the
element of the remaining time list at relative position m lies strictly
beyond every xva time. -/
theorem computeExercisedAux_break_keeps (c : AmcCalc)
    (effPaths : List (List RandomVariable)) (initialStateRVs : List RandomVariable) :
    ∀ (ts : List ℚ) (counter : ℕ) (ex exOut : List PathFilter),
      computeExercisedAux c effPaths initialStateRVs ts counter ex = .ok exOut →
      ∀ m, m < ts.length → (∀ x ∈ c.xvaTimes, x < ts.getD m 0) →
      ∀ j, counter + m + 1 ≤ j →
        exOut.getD j falseFilter = ex.getD j falseFilter := by
  intro ts
  induction ts with
  | nil =>
    intro counter ex exOut _ m hm
    exact absurd hm (by simp)
  | cons t ts ih =>
    intro counter ex exOut h m hm hbey j hj
    cases hfind : findFirstIdx (fun x => x == t) c.exerciseXvaTimes with
    | none =>
      simp [computeExercisedAux, hfind] at h
    | some ind =>
      cases hlow : findFirstIdx (fun x => decide (t ≤ x)) c.xvaTimes with
      | none =>
        simp only [computeExercisedAux, hfind, hlow, Except.ok.injEq] at h
        subst h
        rfl
      | some k2 =>
        cases m with
        | zero =>
          have hnone : findFirstIdx (fun x => decide (t ≤ x)) c.xvaTimes = none := by
            refine findFirstIdx_none_of _ _ (fun x hx => ?_)
            have hlt : x < t := hbey x hx
            exact decide_eq_false_iff_not.mpr (not_le.mpr hlt)
          rw [hnone] at hlow
          exact absurd hlow (by simp)
        | succ m =>
          simp only [computeExercisedAux, hfind, hlow] at h
          have hIH := ih (counter + 1) _ exOut h m (by simpa using hm) hbey j (by omega)
          rw [hIH]
          rw [getD_set_ne _ _ _ _ _ (by omega)]

/-- Claim C10: in a non-sticky simulatePath call, if the exercise time at
index k lies strictly beyond every calibrated valuation (xva) time, the
indicator loop breaks there: that exercise time and every later one keep an
all-false indicator on every path (the instrument is treated as never
exercised through those dates). -/
theorem exercise_beyond_last_xva_never_exercised (c : AmcCalc)
    (effPaths : List (List RandomVariable)) (initialStateRVs : List RandomVariable)
    (hok : exerciseOk (computeExercised c effPaths initialStateRVs) = true)
    (k : ℕ) (hk : k < c.exerciseTimes.length)
    (hbeyond : ∀ x ∈ c.xvaTimes, x < c.exerciseTimes.getD k 0)
    (j : ℕ) (hj : k + 1 ≤ j) (p : ℕ) :
    indicatorOfE (computeExercised c effPaths initialStateRVs) j p = false := by
  cases hr : computeExercised c effPaths initialStateRVs with
  | error e => rw [hr] at hok; simp [exerciseOk] at hok
  | ok exOut =>
    simp only [indicatorOfE]
    have hkeep := computeExercisedAux_break_keeps c effPaths initialStateRVs
      c.exerciseTimes 0 (List.replicate (c.exerciseTimes.length + 1) falseFilter) exOut
      hr k hk hbeyond j (by omega)
    rw [hkeep, getD_replicate_self]
    rfl

/-- The concrete calculator for the C10 witness: the only exercise time 5
lies beyond the only valuation time 2. -/
def c10Calc : AmcCalc :=
  { externalModelIndices := [0], settlement := Settlement.Physical,
    exerciseXvaTimes := [2, 5], exerciseTimes := [5], xvaTimes := [2],
    coeffsUndDirty := [[0], [0]], coeffsUndExInto := [[5], [5]],
    coeffsContinuationValue := [[0], [0]], coeffsOption := [[0], [0]],
    basisFns := [fun _ => 1], resultValue := 0, initialState := [0] }

theorem exercise_beyond_last_xva_never_exercised_witness :
    indicatorOfE (computeExercised c10Calc [[rvConst 0]] [rvConst 0]) 1 0 = false := by
  refine exercise_beyond_last_xva_never_exercised c10Calc [[rvConst 0]] [rvConst 0]
    ?_ 0 (by norm_num [c10Calc]) ?_ 1 (by omega) 0
  · norm_num [computeExercised, computeExercisedAux, findFirstIdx, exerciseOk, c10Calc]
  · intro x hx
    norm_num [c10Calc] at hx
    subst hx
    norm_num [c10Calc]

/-- The invariant behind the corrected claim C4: along the indicator loop,
adjacent exclusivity is maintained (a slot set true forces the immediately
preceding slot false), given that it held for the slots already filled and
that the slots not yet reached are still false. -/
theorem computeExercisedAux_adjacent (c : AmcCalc)
    (effPaths : List (List RandomVariable)) (initialStateRVs : List RandomVariable) :
    ∀ (ts : List ℚ) (counter : ℕ) (ex exOut : List PathFilter),
      computeExercisedAux c effPaths initialStateRVs ts counter ex = .ok exOut →
      (∀ k, k < counter → ∀ p, ex.getD (k + 1) falseFilter p = true →
        ex.getD k falseFilter p = false) →
      (∀ j, counter + 1 ≤ j → ∀ p, ex.getD j falseFilter p = false) →
      ∀ k p, exOut.getD (k + 1) falseFilter p = true → exOut.getD k falseFilter p = false := by
  intro ts
  induction ts with
  | nil =>
    intro counter ex exOut h hA hB k p htrue
    rw [computeExercisedAux, Except.ok.injEq] at h
    subst h
    by_cases hkc : k < counter
    · exact hA k hkc p htrue
    · rw [hB (k + 1) (by omega) p] at htrue
      exact absurd htrue (by simp)
  | cons t ts ih =>
    intro counter ex exOut h hA hB k p htrue
    cases hfind : findFirstIdx (fun x => x == t) c.exerciseXvaTimes with
    | none =>
      simp [computeExercisedAux, hfind] at h
    | some ind =>
      cases hlow : findFirstIdx (fun x => decide (t ≤ x)) c.xvaTimes with
      | none =>
        simp only [computeExercisedAux, hfind, hlow, Except.ok.injEq] at h
        subst h
        by_cases hkc : k < counter
        · exact hA k hkc p htrue
        · rw [hB (k + 1) (by omega) p] at htrue
          exact absurd htrue (by simp)
      | some k2 =>
        simp only [computeExercisedAux, hfind, hlow] at h
        by_cases hbound : counter + 1 < ex.length
        · refine ih (counter + 1) _ exOut h ?_ ?_ k p htrue
          · intro k3 hk3 q hq
            by_cases hk3c : k3 < counter
            · rw [getD_set_ne _ _ _ _ _ (by omega)] at hq
              rw [getD_set_ne _ _ _ _ _ (by omega)]
              exact hA k3 hk3c q hq
            · have hk3e : k3 = counter := by omega
              subst hk3e
              rw [getD_set_self _ _ _ _ hbound] at hq
              rw [getD_set_ne _ _ _ _ _ (by omega)]
              simp only [filterAnd, filterNot, Bool.and_eq_true, Bool.not_eq_true'] at hq
              exact hq.1
          · intro j hjc q
            rw [getD_set_ne _ _ _ _ _ (by omega)]
            exact hB j (by omega) q
        · rw [set_oob _ _ _ (by omega)] at h
          refine ih (counter + 1) ex exOut h ?_ ?_ k p htrue
          · intro k3 hk3 q hq
            by_cases hk3c : k3 < counter
            · exact hA k3 hk3c q hq
            · have hk3e : k3 = counter := by omega
              subst hk3e
              rw [hB (k3 + 1) (by omega) q] at hq
              exact absurd hq (by simp)
          · intro j hjc q
            exact hB j (by omega) q

/-- Claim C4 (amended): the per-exercise-time indicators recorded by the
Forward Replay Calculator are newly-exercised flags, not a sticky sequence:
a slot is set true only where the slot of the immediately preceding
exercise time is false (adjacent exclusivity); the monotone
once-true-stays-true quantity is the accumulated wasExercised filter (the
running OR of the indicators) used by the result-population loop, which is
non-decreasing across valuation times. -/
theorem exercise_indicators_newly_exercised (c : AmcCalc)
    (effPaths : List (List RandomVariable)) (initialStateRVs : List RandomVariable)
    (hok : exerciseOk (computeExercised c effPaths initialStateRVs) = true) :
    (∀ k p, indicatorOfE (computeExercised c effPaths initialStateRVs) (k + 1) p = true →
      indicatorOfE (computeExercised c effPaths initialStateRVs) k p = false)
    ∧ (∀ (exercised : List PathFilter) (p : ℕ) (k1 k2 : ℕ), k1 ≤ k2 →
        k2 < (replayTrace c effPaths exercised).length →
        ((replayTrace c effPaths exercised).getD k1 defaultXvaRecord).wasExercised p = true →
        ((replayTrace c effPaths exercised).getD k2 defaultXvaRecord).wasExercised p = true) := by
  constructor
  · intro k p htrue
    cases hr : computeExercised c effPaths initialStateRVs with
    | error e => rw [hr] at hok; simp [exerciseOk] at hok
    | ok exOut =>
      rw [hr] at htrue
      simp only [indicatorOfE] at htrue ⊢
      refine computeExercisedAux_adjacent c effPaths initialStateRVs
        c.exerciseTimes 0 _ exOut hr (fun k3 hk3 => by omega) ?_ k p htrue
      intro j _ q
      rw [getD_replicate_self]
      rfl
  · intro exercised p k1 k2 h12 hk2 h1
    exact buildTrace_wasEx_mono c effPaths exercised p c.exerciseXvaTimes 0 0 0
      falseFilter falseFilter k1 k2 h12 hk2 h1

/-- The concrete calculator for the C4 counterexample: three exercise times
1, 2, 3 whose exercise condition (exercise value 5 over continuation 0)
holds at every one of them, and one valuation time 4. -/
def c4Calc : AmcCalc :=
  { externalModelIndices := [0], settlement := Settlement.Physical,
    exerciseXvaTimes := [1, 2, 3, 4], exerciseTimes := [1, 2, 3], xvaTimes := [4],
    coeffsUndDirty := [[0], [0], [0], [0]], coeffsUndExInto := [[5], [5], [5], [0]],
    coeffsContinuationValue := [[0], [0], [0], [0]], coeffsOption := [[0], [0], [0], [0]],
    basisFns := [fun _ => 1], resultValue := 0, initialState := [0] }

/-- Counterexample to claim C4 as stated: the recorded indicator sequence
is true at the first exercise time, false at the second, and true again at
the third, so it is neither monotonically non-decreasing nor set true only
when the path is unexercised at every earlier exercise time (the code only
checks the immediately preceding indicator). -/
theorem exercise_indicator_not_sticky :
    indicatorOfE (computeExercised c4Calc [[rvConst 0]] [rvConst 0]) 1 0 = true
    ∧ indicatorOfE (computeExercised c4Calc [[rvConst 0]] [rvConst 0]) 2 0 = false
    ∧ indicatorOfE (computeExercised c4Calc [[rvConst 0]] [rvConst 0]) 3 0 = true := by
  norm_num [computeExercised, computeExercisedAux, findFirstIdx, conditionalExpectation,
    rvGt, rvConst, rvAdd, rvScale, filterAnd, filterNot, filterOr, falseFilter,
    indicatorOfE, c4Calc, List.getD, List.set]

/-- Witness for the amended claim C4: at the concrete calculator, the slot
after a true slot is false. -/
theorem exercise_indicators_newly_exercised_witness :
    indicatorOfE (computeExercised c4Calc [[rvConst 0]] [rvConst 0]) 2 0 = false := by
  have h := exercise_indicators_newly_exercised c4Calc [[rvConst 0]] [rvConst 0]
    (by norm_num [computeExercised, computeExercisedAux, findFirstIdx, exerciseOk, c4Calc])
  refine h.1 2 0 ?_
  norm_num [computeExercised, computeExercisedAux, findFirstIdx, conditionalExpectation,
    rvGt, rvConst, rvAdd, rvScale, filterAnd, filterNot, filterOr, falseFilter,
    indicatorOfE, c4Calc, List.getD, List.set]

/-! ### Claim C8: unrecognized coupons abort valuation during classification -/

/-- The well-formedness of a coupon the engine itself checks: the accrual
start date precedes the pay date (trivially true for non-coupon flows). -/
def accrualOk (f : Flow) : Bool :=
  match f.accrualStartDate with
  | some a => decide (a < f.payDate)
  | none => true

theorem createCashflowInfoM_ok (tm : ℤ → ℚ) (f : Flow) (legNo cfNo : ℕ)
    (hrec : isRecognizedFlow f = true) (hwf : accrualOk f = true) :
    createCashflowInfoM tm f legNo cfNo = .ok (mkCashflowInfo tm f legNo cfNo) := by
  have hrec2 : ¬ f.kind = FlowKind.unrecognized := by
    simpa [isRecognizedFlow] using hrec
  cases hacc : f.accrualStartDate with
  | none =>
    simp only [createCashflowInfoM, hacc, if_neg hrec2]
  | some a =>
    have hlt : a < f.payDate := by
      have := hwf
      rw [accrualOk, hacc] at this
      exact of_decide_eq_true this
    simp only [createCashflowInfoM, hacc, if_pos hlt, if_neg hrec2]

theorem createCashflowInfoM_unrecognized (tm : ℤ → ℚ) (f : Flow) (legNo cfNo : ℕ)
    (hkind : f.kind = FlowKind.unrecognized) (hwf : accrualOk f = true) :
    createCashflowInfoM tm f legNo cfNo = .error (unrecognizedMsg legNo cfNo) := by
  cases hacc : f.accrualStartDate with
  | none =>
    simp only [createCashflowInfoM, hacc, if_pos hkind]
  | some a =>
    have hlt : a < f.payDate := by
      have := hwf
      rw [accrualOk, hacc] at this
      exact of_decide_eq_true this
    simp only [createCashflowInfoM, hacc, if_pos hlt, if_pos hkind]

theorem aliveFlows_cons_dead (today : ℤ) (g : Flow) (gs : List Flow)
    (h : g.payDate ≤ today) : aliveFlows today (g :: gs) = aliveFlows today gs := by
  have hn : ¬ today < g.payDate := not_lt.mpr h
  simp [aliveFlows, List.filter_cons, hn]

theorem aliveFlows_cons_alive (today : ℤ) (g : Flow) (gs : List Flow)
    (h : today < g.payDate) : aliveFlows today (g :: gs) = g :: aliveFlows today gs := by
  simp [aliveFlows, List.filter_cons, h]

/-- The descriptor list a fully recognized leg classifies to. -/
def legInfos (tm : ℤ → ℚ) (today : ℤ) (legNo : ℕ) : List Flow → ℕ → List CashflowInfo
  | [], _ => []
  | f :: fs, cfNo =>
    if f.payDate ≤ today then legInfos tm today legNo fs cfNo
    else mkCashflowInfo tm f legNo cfNo :: legInfos tm today legNo fs (cfNo + 1)

theorem classifyLeg_ok (tm : ℤ → ℚ) (today : ℤ) (legNo : ℕ) :
    ∀ (leg : List Flow) (c0 : ℕ),
      (∀ f ∈ aliveFlows today leg, isRecognizedFlow f = true) →
      (∀ f ∈ aliveFlows today leg, accrualOk f = true) →
      classifyLeg tm today legNo leg c0 = .ok (legInfos tm today legNo leg c0) := by
  intro leg
  induction leg with
  | nil => intro c0 _ _; rfl
  | cons f fs ih =>
    intro c0 hrec hwf
    by_cases hp : f.payDate ≤ today
    · rw [aliveFlows_cons_dead today f fs hp] at hrec hwf
      simp only [classifyLeg, legInfos, if_pos hp]
      exact ih c0 hrec hwf
    · have halive : today < f.payDate := lt_of_not_le hp
      rw [aliveFlows_cons_alive today f fs halive] at hrec hwf
      have h1 := createCashflowInfoM_ok tm f legNo c0 (hrec f (List.mem_cons_self f _))
        (hwf f (List.mem_cons_self f _))
      have h2 := ih (c0 + 1) (fun g hg => hrec g (List.mem_cons_of_mem f hg))
        (fun g hg => hwf g (List.mem_cons_of_mem f hg))
      simp only [classifyLeg, legInfos, if_neg hp, h1, h2]

theorem classifyLeg_unrecognized (tm : ℤ → ℚ) (today : ℤ) (legNo : ℕ) :
    ∀ (leg : List Flow) (c0 k : ℕ) (f : Flow),
      (aliveFlows today leg).get? k = some f →
      f.kind = FlowKind.unrecognized →
      (∀ j g, j < k → (aliveFlows today leg).get? j = some g → isRecognizedFlow g = true) →
      (∀ g ∈ aliveFlows today leg, accrualOk g = true) →
      classifyLeg tm today legNo leg c0 = .error (unrecognizedMsg legNo (c0 + k)) := by
  intro leg
  induction leg with
  | nil =>
    intro c0 k f hget
    simp [aliveFlows] at hget
  | cons g gs ih =>
    intro c0 k f hget hkind hbefore hwf
    by_cases hp : g.payDate ≤ today
    · rw [aliveFlows_cons_dead today g gs hp] at hget hbefore hwf
      rw [classifyLeg, if_pos hp]
      exact ih c0 k f hget hkind hbefore hwf
    · have halive : today < g.payDate := lt_of_not_le hp
      rw [aliveFlows_cons_alive today g gs halive] at hget hbefore hwf
      cases k with
      | zero =>
        have hfg : g = f := Option.some.inj hget
        subst hfg
        have h1 := createCashflowInfoM_unrecognized tm g legNo c0 hkind
          (hwf g (List.mem_cons_self g _))
        simp only [classifyLeg, if_neg hp, h1, Nat.add_zero]
      | succ k =>
        have hgrec : isRecognizedFlow g = true :=
          hbefore 0 g (by omega) rfl
        have h1 := createCashflowInfoM_ok tm g legNo c0 hgrec
          (hwf g (List.mem_cons_self g _))
        have htail := ih (c0 + 1) k f hget hkind
          (fun j g2 hj hg2 => hbefore (j + 1) g2 (by omega) hg2)
          (fun g2 hg2 => hwf g2 (List.mem_cons_of_mem g hg2))
        have harith : c0 + 1 + k = c0 + (k + 1) := by omega
        simp only [classifyLeg, if_neg hp, h1, htail, harith]

theorem classifyFlows_unrecognized (tm : ℤ → ℚ) (today : ℤ) :
    ∀ (legs : List (List Flow)) (legNo l k : ℕ) (f : Flow),
      (aliveFlows today (legs.getD l [])).get? k = some f →
      f.kind = FlowKind.unrecognized →
      (∀ l2 k2 g, (l2 < l ∨ (l2 = l ∧ k2 < k)) →
        (aliveFlows today (legs.getD l2 [])).get? k2 = some g →
        isRecognizedFlow g = true) →
      (∀ leg ∈ legs, ∀ g ∈ aliveFlows today leg, accrualOk g = true) →
      classifyFlows tm today legs legNo = .error (unrecognizedMsg (legNo + l) k) := by
  intro legs
  induction legs with
  | nil =>
    intro legNo l k f hget
    simp [aliveFlows] at hget
  | cons leg legs ih =>
    intro legNo l k f hget hkind hbefore hwf
    cases l with
    | zero =>
      have hleg := classifyLeg_unrecognized tm today legNo leg 0 k f hget hkind
        (fun j g hj hg => hbefore 0 j g (Or.inr ⟨rfl, hj⟩) hg)
        (hwf leg (List.mem_cons_self leg _))
      simp only [classifyFlows, hleg, Nat.add_zero, Nat.zero_add]
    | succ l =>
      have hlegok := classifyLeg_ok tm today legNo leg 0
        (fun g hg => by
          obtain ⟨n, hn⟩ := List.get?_of_mem hg
          exact hbefore 0 n g (Or.inl (by omega)) hn)
        (hwf leg (List.mem_cons_self leg _))
      have htail := ih (legNo + 1) l k f hget hkind
        (fun l2 k2 g hor hg => by
          rcases hor with h | ⟨he, hk2⟩
          · exact hbefore (l2 + 1) k2 g (Or.inl (by omega)) hg
          · exact hbefore (l2 + 1) k2 g (Or.inr ⟨by omega, hk2⟩) hg)
        (fun leg2 hleg2 => hwf leg2 (List.mem_cons_of_mem leg hleg2))
      have harith : legNo + 1 + l = legNo + (l + 1) := by omega
      simp only [classifyFlows, hlegok, htail, harith]

/-- Claim C8: a future-paying cash flow matching none of the supported
coupon shapes makes classification raise the fatal unrecognized-coupon
error naming the leg and the (alive) cash-flow index, and calculate aborts
with that error during the classification phase, before the time grids are
built and before any calibration path is simulated (the Except chain of
calculateModel never reaches the backward walk or the sample count).  The
hbefore hypothesis singles out the first unrecognized alive flow in
traversal order; hwf is the accrual-ordering well-formedness the engine
checks first. -/
theorem unrecognized_coupon_aborts (I : CalcInputs) (l k : ℕ) (f : Flow)
    (hcur : I.numCurrencies = I.legs.length) (hpay : I.numPayers = I.legs.length)
    (hflow : (aliveFlows I.today (I.legs.getD l [])).get? k = some f)
    (hkind : f.kind = FlowKind.unrecognized)
    (hbefore : ∀ l2 k2 g, (l2 < l ∨ (l2 = l ∧ k2 < k)) →
        (aliveFlows I.today (I.legs.getD l2 [])).get? k2 = some g →
        isRecognizedFlow g = true)
    (hwf : ∀ leg ∈ I.legs, ∀ g ∈ aliveFlows I.today leg, accrualOk g = true) :
    calculateModel I = .error (unrecognizedMsg l k) := by
  have hcls := classifyFlows_unrecognized I.tm I.today I.legs 0 l k f hflow hkind hbefore hwf
  rw [Nat.zero_add] at hcls
  unfold calculateModel
  rw [if_neg (show ¬ I.numCurrencies ≠ I.legs.length from by simp [hcur])]
  rw [if_neg (show ¬ I.numPayers ≠ I.legs.length from by simp [hpay])]
  rw [hcls]

/-- The concrete inputs for the C8 witness: one leg with an alive
recognized fixed flow, a dead (already paid) flow that is skipped without
incrementing the counter, and an alive unrecognized flow, which is reported
as leg 0 cashflow 1. -/
def c8Inputs : CalcInputs :=
  { tm := fun d => (d : ℚ), today := 0,
    legs := [[{ payDate := 5, accrualStartDate := none, kind := FlowKind.fixedOrSimple,
                simTimes := [] },
              { payDate := -1, accrualStartDate := none, kind := FlowKind.unrecognized,
                simTimes := [] },
              { payDate := 7, accrualStartDate := some 1, kind := FlowKind.unrecognized,
                simTimes := [] }]],
    numCurrencies := 1, numPayers := 1, exercise := none, simulationDates := [3],
    calibrationSamples := 5, regCoeffs := fun _ _ _ => [], evalCoeffs := fun _ _ => rvConst 0,
    cfValue := fun _ => rvConst 0, expectation := fun x => x 0, numeraire0 := 1 }

theorem unrecognized_coupon_aborts_witness :
    calculateModel c8Inputs = .error (unrecognizedMsg 0 1) := by
  have hav : aliveFlows c8Inputs.today (c8Inputs.legs.getD 0 []) =
      [{ payDate := 5, accrualStartDate := none, kind := FlowKind.fixedOrSimple,
         simTimes := [] },
       { payDate := 7, accrualStartDate := some 1, kind := FlowKind.unrecognized,
         simTimes := [] }] := by decide
  refine unrecognized_coupon_aborts c8Inputs 0 1
    { payDate := 7, accrualStartDate := some 1, kind := FlowKind.unrecognized, simTimes := [] }
    rfl rfl (by rw [hav]; rfl) rfl ?_ ?_
  · intro l2 k2 g hor hg
    rcases hor with h | ⟨he, hk2⟩
    · omega
    · subst he
      have hk20 : k2 = 0 := by omega
      subst hk20
      rw [hav] at hg
      simp only [List.get?, Option.some.injEq] at hg
      rw [← hg]
      decide
  · decide

end QuantExt
